import Mathlib

/-!
Verification development for the `music-symbol-detector` repository.

The repository contains two versions of a `MusicSymbolDetector` class
(`music_symbol_detector.py` and `music_symbol_detector_v2.py`) and an image
upscaler (`upscale_and_process.py`).  The Python code is embedded shallowly:

* XML element trees (`xml.etree.ElementTree`) become the inductive `XElem`;
* Python dictionaries used as symbol records become the structure `SymbolRec`
  (an absent key is `none` / `false`);
* exceptions become `Except` values; a `try`/`except` block becomes a `match`
  on the `Except` result of the embedded `try` body;
* external effects (the filesystem, the Audiveris subprocess, PIL font
  metrics) are passed in as explicit environment values, and file writes are
  returned as an updated finite map.

Machine integers do not overflow in the modelled code paths (Python integers
are unbounded), so coordinates are plain `Int` and sizes plain `Nat`.
-/

namespace MusicSymbolDetector

/-! ## Python string primitives -/

/-- Model of Python `pat in s` (substring containment): `leadsWith pat s`
says that `pat` is a prefix of `s`. -/
def leadsWith : List Char → List Char → Bool
  | [], _ => true
  | _ :: _, [] => false
  | p :: ps, c :: cs => p == c && leadsWith ps cs

/-- `containsSeq pat s` : `pat` occurs contiguously somewhere in `s`. -/
def containsSeq (pat : List Char) : List Char → Bool
  | [] => pat.isEmpty
  | c :: cs => leadsWith pat (c :: cs) || containsSeq pat cs

/-- Model of the Python substring test `pat in s`. -/
def pyIn (pat s : String) : Bool := containsSeq pat.data s.data

/-- Whitespace stripping from both ends, as in Python `s.strip()`. -/
def trimChars (cs : List Char) : List Char :=
  (((cs.dropWhile Char.isWhitespace).reverse).dropWhile Char.isWhitespace).reverse

/-- Character-wise lowercasing, as in Python `s.lower()` on the ASCII
shape names that occur here. -/
def pyLower (s : String) : String := String.mk (s.data.map Char.toLower)

/-- Value of a nonempty list of decimal digits; `none` if empty or if a
non-digit occurs. -/
def digitsToNat? (cs : List Char) : Option Nat :=
  if cs.isEmpty then none
  else cs.foldlM (fun acc c => if c.isDigit then some (acc * 10 + (c.toNat - 48)) else none) 0

/-- Model of Python `int(s)` restricted to the forms that occur here:
whitespace is stripped, then an optional sign followed by digits.
(`none` models a raised `ValueError`.) -/
def pyInt? (s : String) : Option Int :=
  match trimChars s.data with
  | '+' :: ds => (digitsToNat? ds).map Int.ofNat
  | '-' :: ds => (digitsToNat? ds).map (fun n => -(n : Int))
  | ds => (digitsToNat? ds).map Int.ofNat

/-- Numeric value of a (possibly empty) digit list, most significant first. -/
def digitsVal (cs : List Char) : Nat :=
  cs.foldl (fun acc c => acc * 10 + (c.toNat - 48)) 0

/-- Split a character list at the first `'.'`; the second component is
`none` when no dot occurs. -/
def splitDot : List Char → List Char × Option (List Char)
  | [] => ([], none)
  | c :: cs =>
    if c == '.' then ([], some cs)
    else
      let r := splitDot cs
      (c :: r.1, r.2)

/-- Model of Python `float(s)` restricted to decimal literals (optional
sign, digits, optional fractional part), returning an exact rational.
The accidental values compared against (`1`, `-1`, `0`) are represented
exactly, so the comparisons in the source are faithful.  `none` models a
raised `ValueError`. -/
def pyFloat? (s : String) : Option ℚ :=
  let t := trimChars s.data
  let signed : ℚ × List Char :=
    match t with
    | '+' :: r => (1, r)
    | '-' :: r => (-1, r)
    | r => (1, r)
  let sign := signed.1
  let u := signed.2
  match splitDot u with
  | (ip, none) => (digitsToNat? ip).map (fun n => sign * (n : ℚ))
  | (ip, some fp) =>
    if ip.isEmpty && fp.isEmpty then none
    else if ip.all Char.isDigit && fp.all Char.isDigit then
      some (sign * ((digitsVal ip : ℚ) + (digitsVal fp : ℚ) / ((10 : ℚ) ^ fp.length)))
    else none

/-- Index of the last occurrence of `c`, as in Python `s.rfind(c)`
(`none` for `-1`). -/
def lastIdxOf (c : Char) : List Char → Option Nat
  | [] => none
  | a :: rest =>
    match lastIdxOf c rest with
    | some i => some (i + 1)
    | none => if a == c then some 0 else none

/-- Model of `pathlib.PurePath` stem/suffix computation on a file name:
the suffix is the part from the last dot `i` on, provided `0 < i < len - 1`;
otherwise the stem is the whole name and the suffix empty. -/
def pyStemSuffix (b : String) : String × String :=
  let cs := b.data
  match lastIdxOf '.' cs with
  | none => (b, "")
  | some i =>
    if 0 < i ∧ i + 1 < cs.length then (String.mk (cs.take i), String.mk (cs.drop i))
    else (b, "")

/-- `Path(...).stem` of a file name. -/
def pyStem (b : String) : String := (pyStemSuffix b).1

/-- `Path(...).suffix` of a file name. -/
def pySuffix (b : String) : String := (pyStemSuffix b).2

theorem pyStem_append_pySuffix (b : String) : pyStem b ++ pySuffix b = b := by
  obtain ⟨cs⟩ := b
  simp only [pyStem, pySuffix, pyStemSuffix]
  cases h : lastIdxOf '.' cs with
  | none => simp
  | some i =>
    by_cases hc : 0 < i ∧ i + 1 < cs.length
    · simp only [hc, if_pos]
      show String.mk (cs.take i ++ cs.drop i) = String.mk cs
      rw [List.take_append_drop]
    · simp [hc]

/-! ## XML element trees (`xml.etree.ElementTree`) -/

/-- An XML element: tag, attribute list, text content (`none` models a
Python `None` text), children in document order. -/
inductive XElem where
  | node (tag : String) (attrs : List (String × String)) (text : Option String)
      (children : List XElem)

/-- The element's tag. -/
def XElem.tag : XElem → String
  | .node t _ _ _ => t

/-- The element's attribute list. -/
def XElem.attrs : XElem → List (String × String)
  | .node _ a _ _ => a

/-- The element's text content (`Element.text`). -/
def XElem.text : XElem → Option String
  | .node _ _ tx _ => tx

/-- The element's children in document order. -/
def XElem.children : XElem → List XElem
  | .node _ _ _ cs => cs

/-- `Element.get(key)`: first attribute with the given key. -/
def getAttr (e : XElem) (key : String) : Option String :=
  (e.attrs.find? (fun p => p.1 == key)).map (·.2)

/-- `Element.get(key, default)`. -/
def getAttrD (e : XElem) (key dflt : String) : String :=
  (getAttr e key).getD dflt

/-- `Element.find(tag)`: first direct child with the given tag. -/
def findChild (e : XElem) (t : String) : Option XElem :=
  e.children.find? (fun c => c.tag == t)

mutual

/-- All nodes of an element subtree in document (preorder) order,
including the element itself. -/
def allNodes : XElem → List XElem
  | .node t a tx cs => .node t a tx cs :: allNodesL cs

/-- All nodes of a forest in document order. -/
def allNodesL : List XElem → List XElem
  | [] => []
  | c :: cs => allNodes c ++ allNodesL cs

end

/-- `root.findall('.//tag')`: every proper descendant of `root` with the
given tag, in document order. -/
def descTag (root : XElem) (t : String) : List XElem :=
  (allNodesL root.children).filter (fun c => c.tag == t)

/-- `root.find('.//sig/inters')`: the first `inters` child of a `sig`
descendant. -/
def findSigInters (root : XElem) : Option XElem :=
  (((descTag root "sig").map
      (fun s => s.children.filter (fun c => c.tag == "inters"))).flatten).head?

/-- Tag rewriting performed by `ElementTree` for the v1 namespace mapping
`\x7b'': 'http://www.w3.org/2001/MUSICxml'\x7d`: an unprefixed tag `t` in a
path is looked up as `\x7buri\x7dt`. -/
def mxTag (t : String) : String :=
  "\x7bhttp://www.w3.org/2001/MUSICxml\x7d" ++ t

/-! ## Symbol records

A Python symbol dictionary.  An absent `'bbox'` / `'shape'` key is `none`;
an absent `'estimated'` key is `false` (the source only ever stores
`'estimated': True`).  The `'element'` reference stored by the v1 MusicXML
pass is not modelled: those records are replaced or discarded before any
use of that key. -/

structure SymbolRec where
  type : String
  bbox : Option (Int × Int × Int × Int) := none
  shape : Option String := none
  estimated : Bool := false
deriving DecidableEq, Repr

/-- `TARGET_SYMBOLS` dictionary (symbol type to one-character label). -/
def TARGET_SYMBOLS : List (String × String) :=
  [("sharp", "#"), ("flat", "b"), ("natural", "n"), ("notehead", "o")]

/-- `COLORS` dictionary (symbol type to outline color). -/
def COLORS : List (String × String) :=
  [("sharp", "#FF0000"), ("flat", "#00FF00"), ("natural", "#0000FF"), ("notehead", "#FF00FF")]

/-- `d.get(k)` on a Python dict modelled as an association list. -/
def dictGet (d : List (String × String)) (k : String) : Option String :=
  (d.find? (fun p => p.1 == k)).map (·.2)

/-! ## Shape classification -/

/-- The inline shape classification of v1 `_parse_omr_book`
(`music_symbol_detector.py` lines 249-261): substring tests on the
lowercased shape, in source order. -/
def classifyV1 (shape : String) : Option String :=
  let shape_lower := pyLower shape
  if pyIn "sharp" shape_lower then some "sharp"
  else if pyIn "flat" shape_lower then some "flat"
  else if pyIn "natural" shape_lower then some "natural"
  else if pyIn "notehead" shape_lower || pyIn "head" shape_lower then some "notehead"
  else none

/-- v2 `MusicSymbolDetector._classify_symbol`
(`music_symbol_detector_v2.py` lines 203-216). -/
def classify_symbol (shape : String) : Option String :=
  let shape_lower := pyLower shape
  if pyIn "sharp" shape_lower then some "sharp"
  else if pyIn "flat" shape_lower then some "flat"
  else if pyIn "natural" shape_lower then some "natural"
  else if pyIn "notehead" shape_lower || pyIn "head" shape_lower then some "notehead"
  else none

/-! ## Bounding boxes from `<bounds>` elements

Both versions repeat the same four lines
`x = int(bounds.get('x', 0)) ... (x, y, x + w, y + h)` at every use site;
they are factored into `coordE`/`boundsBBox`.  An `Except.error` models a
raised `ValueError` from `int(...)`. -/

/-- `int(bounds.get(key, dflt))`: the missing-attribute default is already
an `int`; a present attribute is parsed, raising on failure. -/
def coordE (bounds : XElem) (key : String) (dflt : Int) : Except Unit Int :=
  match getAttr bounds key with
  | none => .ok dflt
  | some s =>
    match pyInt? s with
    | some v => .ok v
    | none => .error ()

/-- The `(x, y, x + w, y + h)` tuple built from a `<bounds>` element, with
defaults `x = 0`, `y = 0`, `w = 20`, `h = 20`; attribute reads in source
order. -/
def boundsBBox (bounds : XElem) : Except Unit (Int × Int × Int × Int) :=
  match coordE bounds "x" 0 with
  | .error e => .error e
  | .ok x =>
    match coordE bounds "y" 0 with
    | .error e => .error e
    | .ok y =>
      match coordE bounds "w" 20 with
      | .error e => .error e
      | .ok w =>
        match coordE bounds "h" 20 with
        | .error e => .error e
        | .ok h => .ok (x, y, x + w, y + h)

/-! ## Per-element record construction -/

/-- One iteration of the `for inter in root.findall('.//inter')` loop of
v1 `_parse_omr_book` (lines 247-276): `ok none` means no record appended,
`error` a raised `ValueError`. -/
def interRecordV1 (inter : XElem) : Except Unit (Option SymbolRec) :=
  let shape := getAttrD inter "shape" ""
  match classifyV1 shape with
  | none => .ok none
  | some ty =>
    match findChild inter "bounds" with
    | none => .ok none
    | some bounds =>
      match boundsBBox bounds with
      | .error e => .error e
      | .ok bbox => .ok (some { type := ty, bbox := some bbox, shape := some shape })

/-- One iteration of the `for head in inters.findall('.//head')` loop of
v2 `_parse_sheet_xml` (lines 144-156). -/
def headRecord (head : XElem) : Except Unit (Option SymbolRec) :=
  match findChild head "bounds" with
  | none => .ok none
  | some bounds =>
    match boundsBBox bounds with
    | .error e => .error e
    | .ok bbox =>
      .ok (some { type := "notehead", bbox := some bbox,
                  shape := some (getAttrD head "shape" "NOTEHEAD") })

/-- One iteration of the `for accidental in inters.findall('.//key-alter')`
loop of v2 `_parse_sheet_xml` (lines 159-175). -/
def keyAlterRecord (accidental : XElem) : Except Unit (Option SymbolRec) :=
  let shape := getAttrD accidental "shape" ""
  match findChild accidental "bounds" with
  | none => .ok none
  | some bounds =>
    match classify_symbol shape with
    | none => .ok none
    | some ty =>
      match boundsBBox bounds with
      | .error e => .error e
      | .ok bbox => .ok (some { type := ty, bbox := some bbox, shape := some shape })

/-- One iteration of the `for inter in inters.findall('.//inter')` loop of
v2 `_parse_sheet_xml` (lines 178-194), with its `'SHARP' in shape or ...`
pre-filter. -/
def interRecordV2 (inter : XElem) : Except Unit (Option SymbolRec) :=
  let shape := getAttrD inter "shape" ""
  if pyIn "SHARP" shape || pyIn "FLAT" shape || pyIn "NATURAL" shape then
    match findChild inter "bounds" with
    | none => .ok none
    | some bounds =>
      match classify_symbol shape with
      | none => .ok none
      | some ty =>
        match boundsBBox bounds with
        | .error e => .error e
        | .ok bbox => .ok (some { type := ty, bbox := some bbox, shape := some shape })
  else .ok none

/-! ## Append loops under a `try` block

The Python loops append to a mutable `symbols` list; when an iteration
raises, the loop aborts and the enclosing `except` still sees the records
appended so far.  `runLoop` returns that partial list in the `error`
case. -/

/-- Run a per-element step over a list of elements, accumulating appended
records; an `error` carries the records appended before the raise. -/
def runLoop (f : XElem → Except Unit (Option SymbolRec)) :
    List XElem → List SymbolRec → Except (List SymbolRec) (List SymbolRec)
  | [], acc => .ok acc
  | e :: es, acc =>
    match f e with
    | .error _ => .error acc
    | .ok none => runLoop f es acc
    | .ok (some r) => runLoop f es (acc ++ [r])

/-- The value of the `symbols` variable observed after the `try`/`except`:
the exception, if any, is swallowed. -/
def settle : Except (List SymbolRec) (List SymbolRec) → List SymbolRec
  | .ok l => l
  | .error l => l

/-! ## v1 `_parse_omr_book` -/

/-- v1 `MusicSymbolDetector._parse_omr_book` (lines 238-283).  The input is
the result of `ET.parse(book_file)`: `none` models a parse exception (the
`except` then returns the empty `symbols` list). -/
def parse_omr_book (content : Option XElem) : List SymbolRec :=
  match content with
  | none => []
  | some root => settle (runLoop interRecordV1 (descTag root "inter") [])

/-! ## v1 MusicXML pass of `_parse_omr_output` -/

/-- A record appended by the MusicXML pass: only the `'type'` key (and the
unmodelled `'element'` reference); no `'bbox'` key. -/
def mxRec (t : String) : SymbolRec := { type := t }

/-- The records contributed by the `pitch`/`alter` part of one `note`
(lines 188-202).  `error` models `float(alter.text)` raising
(`TypeError` on `None` text, `ValueError` on a non-numeric string). -/
def pitchRecords (note : XElem) : Except Unit (List SymbolRec) :=
  match findChild note (mxTag "pitch") with
  | none => .ok []
  | some pitch =>
    match findChild pitch (mxTag "alter") with
    | none => .ok [mxRec "notehead"]
    | some alter =>
      match alter.text with
      | none => .error ()
      | some t =>
        match pyFloat? t with
        | none => .error ()
        | some alter_value =>
          if alter_value = 1 then .ok [mxRec "sharp", mxRec "notehead"]
          else if alter_value = -1 then .ok [mxRec "flat", mxRec "notehead"]
          else if alter_value = 0 then .ok [mxRec "natural", mxRec "notehead"]
          else .ok [mxRec "notehead"]

/-- The records contributed by the explicit `accidental` part of one `note`
(lines 205-213).  `error` models `accidental.text.lower()` raising an
`AttributeError` on `None` text. -/
def accidentalRecords (note : XElem) : Except Unit (List SymbolRec) :=
  match findChild note (mxTag "accidental") with
  | none => .ok []
  | some accidental =>
    match accidental.text with
    | none => .error ()
    | some t =>
      let acc_type := pyLower t
      if pyIn "sharp" acc_type then .ok [mxRec "sharp"]
      else if pyIn "flat" acc_type then .ok [mxRec "flat"]
      else if pyIn "natural" acc_type then .ok [mxRec "natural"]
      else .ok []

/-- All records appended while processing one `note` element. -/
def noteRecords (note : XElem) : Except Unit (List SymbolRec) :=
  match pitchRecords note with
  | .error e => .error e
  | .ok ps =>
    match accidentalRecords note with
    | .error e => .error e
    | .ok qs => .ok (ps ++ qs)

/-- The `for note in root.findall('.//note', namespaces)` loop
(lines 186-213).  A raise anywhere sends `_parse_omr_output` to its
`except` handler, which discards the partial list, so a fail-fast fold is
faithful. -/
def notesLoop : List XElem → Except Unit (List SymbolRec)
  | [] => .ok []
  | n :: ns =>
    match noteRecords n with
    | .error e => .error e
    | .ok rs =>
      match notesLoop ns with
      | .error e => .error e
      | .ok more => .ok (rs ++ more)

/-- The note elements scanned by v1: descendants tagged
`\x7buri\x7dnote` under the (misspelled) MusicXML namespace mapping. -/
def mxNotes (root : XElem) : List XElem := descTag root (mxTag "note")

/-! ## v1 `_estimate_positions` -/

/-- The `for i, symbol in enumerate(symbols)` loop of `_estimate_positions`
(lines 291-301), with the running index made explicit. -/
def estLoop : Nat → List SymbolRec → List SymbolRec
  | _, [] => []
  | i, s :: rest =>
    { type := s.type,
      bbox := some (100 + (i : Int) * 50, 100, 120 + (i : Int) * 50, 120),
      estimated := true } :: estLoop (i + 1) rest

/-- v1 `MusicSymbolDetector._estimate_positions`. -/
def estimate_positions (symbols : List SymbolRec) : List SymbolRec :=
  estLoop 0 symbols

/-! ## v1 `_parse_omr_output` -/

/-- v1 `MusicSymbolDetector._parse_alternative` (lines 285-289). -/
def parse_alternative : List SymbolRec := []

/-- Environment of one `_parse_omr_output` call: the outcome of
`ET.parse(omr_file)` (`none` = raised), and the `.omr` book file next to it
(`none` = `book_file.exists()` is false; `some c` = it exists and
`ET.parse` yields `c`). -/
structure V1Env where
  mxl : Option XElem
  book : Option (Option XElem)

/-- The `try` body of v1 `_parse_omr_output` (lines 177-229). -/
def outputBody (env : V1Env) : Except Unit (List SymbolRec) :=
  match env.mxl with
  | none => .error ()
  | some root =>
    match notesLoop (mxNotes root) with
    | .error e => .error e
    | .ok mxSyms =>
      match env.book with
      | some content => .ok (parse_omr_book content)
      | none => .ok (estimate_positions mxSyms)

/-- v1 `MusicSymbolDetector._parse_omr_output` (lines 165-236): the `try`
body, with the `except` falling back to `_parse_alternative`. -/
def parse_omr_output (env : V1Env) : List SymbolRec :=
  match outputBody env with
  | .ok symbols => symbols
  | .error _ => parse_alternative

/-! ## v2 `_parse_sheet_xml` and `_parse_omr_file` -/

/-- The `try` body of v2 `_parse_sheet_xml` (lines 133-194): the three
loops in source order, an `error` carrying the records appended before the
raise. -/
def sheetBody (root : XElem) : Except (List SymbolRec) (List SymbolRec) :=
  match findSigInters root with
  | none => .ok []
  | some inters =>
    match runLoop headRecord (descTag inters "head") [] with
    | .error l => .error l
    | .ok l1 =>
      match runLoop keyAlterRecord (descTag inters "key-alter") l1 with
      | .error l => .error l
      | .ok l2 => runLoop interRecordV2 (descTag inters "inter") l2

/-- v2 `MusicSymbolDetector._parse_sheet_xml` (lines 129-201).  The input
is the result of `ET.parse(sheet_xml)` (`none` = raised before any
append). -/
def parse_sheet_xml (content : Option XElem) : List SymbolRec :=
  match content with
  | none => []
  | some root => settle (sheetBody root)

/-- v2 `MusicSymbolDetector._parse_omr_file` (lines 105-127).  The input
models the ZIP extraction: `none` = the archive failed to open or extract
(raised before any sheet was parsed); `some cs` = the parse outcomes of
the existing `sheet#*/sheet#*.xml` files, in glob order. -/
def parse_omr_file (sheets : Option (List (Option XElem))) : List SymbolRec :=
  match sheets with
  | none => []
  | some cs => (cs.map parse_sheet_xml).flatten

/-! ## Paths and the filesystem -/

/-- A `pathlib.Path`: parent directory components plus the file name. -/
structure PyPath where
  dir : List String
  base : String
deriving DecidableEq, Repr

/-- `str(path)`, used when assembling the subprocess command line. -/
def pathStr (p : PyPath) : String :=
  String.intercalate "/" (p.dir ++ [p.base])

/-- The filesystem after `save`-ing value `v` at path `p`. -/
def updateMap {β : Type} (fs : PyPath → Option β) (p : PyPath) (v : β) :
    PyPath → Option β :=
  fun q => if q = p then some v else fs q

/-! ## PIL images and drawing

A PIL image is modelled as the input pixels plus the in-memory draw calls
applied to it, in order.  `ImageDraw` mutates the opened image in place;
the functional fold below is the same final value.  Font metrics
(`draw.textbbox`) depend on the loaded font and are supplied by the
environment `DrawCfg`. -/

inductive Img where
  | load (content : String)
  | rect (base : Img) (bbox : Int × Int × Int × Int) (outline : String) (width : Nat)
  | fillRect (base : Img) (bbox : Int × Int × Int × Int) (fill : String)
  | text (base : Img) (pos : Int × Int) (label : String) (fill : String)
deriving DecidableEq, Repr

/-- `draw.textbbox` under the regular font (`tb`) and the small font
(`tbSmall`); v1 only uses the regular one. -/
structure DrawCfg where
  tb : Int × Int → String → Int × Int × Int × Int
  tbSmall : Int × Int → String → Int × Int × Int × Int

/-- One iteration of the symbol loop of v1 `_draw_bounding_boxes`
(lines 322-341). -/
def drawSymbolV1 (cfg : DrawCfg) (img : Img) (s : SymbolRec) : Img :=
  if (dictGet TARGET_SYMBOLS s.type).isNone then img
  else
    match s.bbox with
    | none => img
    | some bb =>
      let color := (dictGet COLORS s.type).getD "#FFFFFF"
      let label := (dictGet TARGET_SYMBOLS s.type).getD ""
      let pos : Int × Int := (bb.1, bb.2.1 - 25)
      let text_bbox := cfg.tb pos label
      Img.text (Img.fillRect (Img.rect img bb color 3) text_bbox color) pos label "white"

/-- v1 `MusicSymbolDetector._draw_bounding_boxes` (lines 303-344) applied
to the opened image value. -/
def draw_bounding_boxes_v1 (cfg : DrawCfg) (img : Img) (symbols : List SymbolRec) : Img :=
  symbols.foldl (drawSymbolV1 cfg) img

/-- One iteration of the symbol loop of v2 `_draw_bounding_boxes`
(lines 232-251): the label is clamped with `text_y = max(bbox[1] - 30, 0)`. -/
def drawSymbolV2 (cfg : DrawCfg) (img : Img) (s : SymbolRec) : Img :=
  if (dictGet TARGET_SYMBOLS s.type).isNone then img
  else
    match s.bbox with
    | none => img
    | some bb =>
      let color := (dictGet COLORS s.type).getD "#FFFFFF"
      let label := (dictGet TARGET_SYMBOLS s.type).getD ""
      let text_y := max (bb.2.1 - 30) 0
      let pos : Int × Int := (bb.1, text_y)
      let text_bbox := cfg.tb pos label
      Img.text (Img.fillRect (Img.rect img bb color 3) text_bbox color) pos label "white"

/-- v2 `MusicSymbolDetector._draw_bounding_boxes` (lines 218-260): the
symbol loop followed by the yellow info banner. -/
def draw_bounding_boxes_v2 (cfg : DrawCfg) (img : Img) (symbols : List SymbolRec) : Img :=
  let base := symbols.foldl (drawSymbolV2 cfg) img
  let info_text := "Detected: " ++ toString symbols.length ++ " symbols"
  let info_bbox := cfg.tbSmall (10, 10) info_text
  Img.text (Img.fillRect base info_bbox "yellow") (10, 10) info_text "black"

/-! ## `process_image` (both versions) -/

inductive PyErr where
  | fileNotFound
  | runtimeError
deriving DecidableEq, Repr

/-- The default output path `image_path.parent / f"\x7bstem\x7d_detected\x7bsuffix\x7d"`. -/
def defaultOutput (image_path : PyPath) : PyPath :=
  { dir := image_path.dir,
    base := pyStem image_path.base ++ "_detected" ++ pySuffix image_path.base }

/-- `MusicSymbolDetector.process_image` (v1 lines 69-105): existence check,
output-path defaulting, the recognizer-plus-parsing stage (whose outcome
`aud` is environment-supplied: `error` models `_run_audiveris` raising,
`ok symbols` the list returned by `_parse_omr_output`, which never raises),
drawing on the opened input image, and the save.  Returns the filesystem
after the call together with the normal return value or the propagated
exception. -/
def process_image_v1 (cfg : DrawCfg) (fs : PyPath → Option Img)
    (aud : Except Unit (List SymbolRec)) (image_path : PyPath)
    (output_path : Option PyPath) : (PyPath → Option Img) × Except PyErr PyPath :=
  match fs image_path with
  | none => (fs, .error .fileNotFound)
  | some img =>
    let out := output_path.getD (defaultOutput image_path)
    match aud with
    | .error _ => (fs, .error .runtimeError)
    | .ok symbols =>
      (updateMap fs out (draw_bounding_boxes_v1 cfg img symbols), .ok out)

/-- v2 `MusicSymbolDetector.process_image` (lines 42-69); identical control
flow, with the v2 drawing routine. -/
def process_image_v2 (cfg : DrawCfg) (fs : PyPath → Option Img)
    (aud : Except Unit (List SymbolRec)) (image_path : PyPath)
    (output_path : Option PyPath) : (PyPath → Option Img) × Except PyErr PyPath :=
  match fs image_path with
  | none => (fs, .error .fileNotFound)
  | some img =>
    let out := output_path.getD (defaultOutput image_path)
    match aud with
    | .error _ => (fs, .error .runtimeError)
    | .ok symbols =>
      (updateMap fs out (draw_bounding_boxes_v2 cfg img symbols), .ok out)

/-! ## Locating and invoking Audiveris -/

/-- Environment of v1 `_find_audiveris`: the user's home directory (for
`os.path.expanduser`), the `os.path.exists` predicate, and the outcome of
`subprocess.run(['which', 'audiveris'])` (`none` = the call raised,
`some (returncode, stdout)` otherwise). -/
structure FindEnv where
  home : String
  pathTest : String → Bool
  which : Option (Int × String)

/-- The `possible_paths` list of v1 `_find_audiveris` (lines 47-52). -/
def possiblePaths (home : String) : List String :=
  ["/Applications/Audiveris.app/Contents/MacOS/Audiveris",
   "/usr/local/bin/audiveris",
   "audiveris",
   home ++ "/Audiveris/build/libs/Audiveris-*.jar"]

/-- v1 `MusicSymbolDetector._find_audiveris` (lines 45-67). -/
def find_audiveris (env : FindEnv) : Option String :=
  match (possiblePaths env.home).find? env.pathTest with
  | some p => some p
  | none =>
    match env.which with
    | none => none
    | some (rc, out) => if rc = 0 then some (String.mk (trimChars out.data)) else none

/-- v1 `__init__`: `audiveris_path or self._find_audiveris()`; a `None` or
empty supplied path is falsy and triggers the search. -/
def initPathV1 (audiveris_path : Option String) (env : FindEnv) : Option String :=
  match audiveris_path with
  | some s => if s = "" then find_audiveris env else some s
  | none => find_audiveris env

/-- Observable side actions of `_run_audiveris`. -/
inductive Action where
  | mkdir (dir : PyPath)
  | subproc (cmd : List String)
deriving DecidableEq, Repr

/-- Environment of v1 `_run_audiveris`: the subprocess outcome (`none` =
`TimeoutExpired`, `some rc` = completed with return code `rc`) and the
existence of each candidate output file. -/
structure RunEnvV1 where
  proc : Option Int
  mxlFound : Bool
  xmlFound : Bool

/-- v1 `MusicSymbolDetector._run_audiveris` (lines 107-163), returning the
emitted actions and the normal result or raised `RuntimeError`. -/
def run_audiveris_v1 (apath : Option String) (image_path : PyPath) (env : RunEnvV1) :
    List Action × Except Unit PyPath :=
  match apath with
  | none => ([], .error ())
  | some p =>
    let output_dir : PyPath := { dir := image_path.dir, base := "audiveris_output" }
    let cmd :=
      if p.endsWith ".jar" then
        ["java", "-jar", p, "-batch", "-export", "-output", pathStr output_dir, pathStr image_path]
      else
        [p, "-batch", "-export", "-output", pathStr output_dir, pathStr image_path]
    let acts := [Action.mkdir output_dir, Action.subproc cmd]
    match env.proc with
    | none => (acts, .error ())
    | some rc =>
      if rc ≠ 0 then (acts, .error ())
      else
        let project := pyStem image_path.base
        if env.mxlFound then
          (acts, .ok { dir := image_path.dir ++ ["audiveris_output", project],
                       base := project ++ ".mxl" })
        else if env.xmlFound then
          (acts, .ok { dir := image_path.dir ++ ["audiveris_output", project],
                       base := project ++ ".xml" })
        else (acts, .error ())

/-- Environment of v2 `_run_audiveris`: subprocess outcome and existence of
the `.omr` output (a nonzero return code is only printed, not raised). -/
structure RunEnvV2 where
  proc : Option Int
  omrFound : Bool

/-- v2 `MusicSymbolDetector._run_audiveris` (lines 71-103). -/
def run_audiveris_v2 (apath : Option String) (image_path : PyPath) (env : RunEnvV2) :
    List Action × Except Unit PyPath :=
  match apath with
  | none => ([], .error ())
  | some p =>
    let output_dir : PyPath := { dir := image_path.dir, base := "audiveris_output" }
    let cmd := [p, "-batch", "-export", "-output", pathStr output_dir, pathStr image_path]
    let acts := [Action.mkdir output_dir, Action.subproc cmd]
    match env.proc with
    | none => (acts, .error ())
    | some _ =>
      if env.omrFound then
        (acts, .ok { dir := image_path.dir ++ ["audiveris_output"],
                     base := pyStem image_path.base ++ ".omr" })
      else (acts, .error ())

/-! ## `upscale_and_process.upscale_image` -/

/-- A PIL image for the upscaler: source pixels with their size, or a
`resize` result (PIL `Image.resize(size)` returns a new image of exactly
the requested size). -/
inductive UImage where
  | src (w h : Nat) (data : String)
  | resized (orig : UImage) (w h : Nat)
deriving DecidableEq, Repr

/-- `img.width`. -/
def uwidth : UImage → Nat
  | .src w _ _ => w
  | .resized _ w _ => w

/-- `img.height`. -/
def uheight : UImage → Nat
  | .src _ h _ => h
  | .resized _ _ h => h

/-- `upscale_and_process.upscale_image` (lines 9-21): opens the input
(raising if missing, unmodelled further), resizes to
`(width * scale_factor, height * scale_factor)`, saves at the output path
and returns it. -/
def upscale_image (fs : PyPath → Option UImage) (input_path output_path : PyPath)
    (scale_factor : Nat := 4) : (PyPath → Option UImage) × Except Unit PyPath :=
  match fs input_path with
  | none => (fs, .error ())
  | some img =>
    let img_upscaled :=
      UImage.resized img (uwidth img * scale_factor) (uheight img * scale_factor)
    (updateMap fs output_path img_upscaled, .ok output_path)

/-! ## Helper lemmas -/

lemma classify_symbol_mem {s t : String} (h : classify_symbol s = some t) :
    t = "sharp" ∨ t = "flat" ∨ t = "natural" ∨ t = "notehead" := by
  simp only [classify_symbol] at h
  split_ifs at h <;> simp_all

lemma classify_agree (s : String) : classifyV1 s = classify_symbol s := rfl

lemma classifyV1_mem {s t : String} (h : classifyV1 s = some t) :
    t = "sharp" ∨ t = "flat" ∨ t = "natural" ∨ t = "notehead" :=
  classify_symbol_mem (classify_agree s ▸ h)

lemma interRecordV1_sound {e : XElem} {r : SymbolRec}
    (h : interRecordV1 e = .ok (some r)) :
    (r.type = "sharp" ∨ r.type = "flat" ∨ r.type = "natural" ∨ r.type = "notehead")
      ∧ r.bbox.isSome := by
  cases hc : classifyV1 (getAttrD e "shape" "") with
  | none => simp [interRecordV1, hc] at h
  | some ty =>
    cases hf : findChild e "bounds" with
    | none => simp [interRecordV1, hc, hf] at h
    | some b =>
      cases hb : boundsBBox b with
      | error u => simp [interRecordV1, hc, hf, hb] at h
      | ok bbox =>
        simp only [interRecordV1, hc, hf, hb, Except.ok.injEq, Option.some.injEq] at h
        subst h
        exact ⟨classifyV1_mem hc, rfl⟩

lemma headRecord_sound {e : XElem} {r : SymbolRec}
    (h : headRecord e = .ok (some r)) :
    (r.type = "sharp" ∨ r.type = "flat" ∨ r.type = "natural" ∨ r.type = "notehead")
      ∧ r.bbox.isSome := by
  cases hf : findChild e "bounds" with
  | none => simp [headRecord, hf] at h
  | some b =>
    cases hb : boundsBBox b with
    | error u => simp [headRecord, hf, hb] at h
    | ok bbox =>
      simp only [headRecord, hf, hb, Except.ok.injEq, Option.some.injEq] at h
      subst h
      exact ⟨by simp, rfl⟩

lemma keyAlterRecord_sound {e : XElem} {r : SymbolRec}
    (h : keyAlterRecord e = .ok (some r)) :
    (r.type = "sharp" ∨ r.type = "flat" ∨ r.type = "natural" ∨ r.type = "notehead")
      ∧ r.bbox.isSome := by
  cases hf : findChild e "bounds" with
  | none => simp [keyAlterRecord, hf] at h
  | some b =>
    cases hc : classify_symbol (getAttrD e "shape" "") with
    | none => simp [keyAlterRecord, hf, hc] at h
    | some ty =>
      cases hb : boundsBBox b with
      | error u => simp [keyAlterRecord, hf, hc, hb] at h
      | ok bbox =>
        simp only [keyAlterRecord, hf, hc, hb, Except.ok.injEq, Option.some.injEq] at h
        subst h
        exact ⟨classify_symbol_mem hc, rfl⟩

lemma interRecordV2_sound {e : XElem} {r : SymbolRec}
    (h : interRecordV2 e = .ok (some r)) :
    (r.type = "sharp" ∨ r.type = "flat" ∨ r.type = "natural" ∨ r.type = "notehead")
      ∧ r.bbox.isSome := by
  by_cases hpre :
      (pyIn "SHARP" (getAttrD e "shape" "") || pyIn "FLAT" (getAttrD e "shape" "")
        || pyIn "NATURAL" (getAttrD e "shape" "")) = true
  · cases hf : findChild e "bounds" with
    | none => simp [interRecordV2, hpre, hf] at h
    | some b =>
      cases hc : classify_symbol (getAttrD e "shape" "") with
      | none => simp [interRecordV2, hpre, hf, hc] at h
      | some ty =>
        cases hb : boundsBBox b with
        | error u => simp [interRecordV2, hpre, hf, hc, hb] at h
        | ok bbox =>
          simp only [interRecordV2, hpre, if_true, hf, hc, hb, Except.ok.injEq,
            Option.some.injEq] at h
          subst h
          exact ⟨classify_symbol_mem hc, rfl⟩
  · simp [interRecordV2, hpre] at h

lemma settle_runLoop_mem (f : XElem → Except Unit (Option SymbolRec))
    (P : SymbolRec → Prop) (hf : ∀ e r, f e = Except.ok (some r) → P r) :
    ∀ (es : List XElem) (acc : List SymbolRec), (∀ r ∈ acc, P r) →
      ∀ r ∈ settle (runLoop f es acc), P r := by
  intro es
  induction es with
  | nil => intro acc hacc r hr; exact hacc r hr
  | cons e es ih =>
    intro acc hacc r hr
    unfold runLoop at hr
    cases hfe : f e with
    | error u => rw [hfe] at hr; exact hacc r hr
    | ok o =>
      cases o with
      | none => rw [hfe] at hr; exact ih acc hacc r hr
      | some r' =>
        rw [hfe] at hr
        refine ih (acc ++ [r']) ?_ r hr
        intro x hx
        rcases List.mem_append.mp hx with hx | hx
        · exact hacc x hx
        · rw [List.mem_singleton.mp hx]
          exact hf e r' hfe

lemma runLoop_ok_mem (f : XElem → Except Unit (Option SymbolRec))
    (P : SymbolRec → Prop) (hf : ∀ e r, f e = Except.ok (some r) → P r)
    {es : List XElem} {acc l : List SymbolRec}
    (hacc : ∀ r ∈ acc, P r) (h : runLoop f es acc = .ok l) :
    ∀ r ∈ l, P r := by
  have := settle_runLoop_mem f P hf es acc hacc
  rw [h] at this
  exact this

/-- The records a loop collects until its first raise: skipped elements
contribute nothing, appended ones their record. -/
lemma runLoop_prefix (f : XElem → Except Unit (Option SymbolRec)) :
    ∀ (es : List XElem) (acc : List SymbolRec),
      ∃ pre suf, es = pre ++ suf
        ∧ (∀ e ∈ pre, ∃ o, f e = .ok o)
        ∧ settle (runLoop f es acc)
            = acc ++ pre.filterMap (fun e =>
                match f e with
                | .ok o => o
                | .error _ => none)
        ∧ (∀ e, suf.head? = some e → f e = .error ()) := by
  intro es
  induction es with
  | nil =>
    intro acc
    exact ⟨[], [], by simp, by simp, by simp [runLoop, settle], by simp⟩
  | cons e es ih =>
    intro acc
    cases hfe : f e with
    | error u =>
      refine ⟨[], e :: es, by simp, by simp, ?_, ?_⟩
      · simp [runLoop, hfe, settle]
      · intro e' he'
        simp only [List.head?_cons, Option.some.injEq] at he'
        subst he'
        cases u
        exact hfe
    | ok o =>
      cases o with
      | none =>
        obtain ⟨pre, suf, hsplit, hok, hval, hsuf⟩ := ih acc
        refine ⟨e :: pre, suf, by simp [hsplit], ?_, ?_, hsuf⟩
        · intro x hx
          rcases List.mem_cons.mp hx with rfl | hx
          · exact ⟨none, hfe⟩
          · exact hok x hx
        · simp only [runLoop, hfe]
          rw [hval]
          simp [hfe]
      | some r =>
        obtain ⟨pre, suf, hsplit, hok, hval, hsuf⟩ := ih (acc ++ [r])
        refine ⟨e :: pre, suf, by simp [hsplit], ?_, ?_, hsuf⟩
        · intro x hx
          rcases List.mem_cons.mp hx with rfl | hx
          · exact ⟨some r, hfe⟩
          · exact hok x hx
        · simp only [runLoop, hfe]
          rw [hval]
          simp [hfe]

lemma pitchRecords_types {n : XElem} {l : List SymbolRec}
    (h : pitchRecords n = .ok l) :
    ∀ r ∈ l, r.type = "sharp" ∨ r.type = "flat" ∨ r.type = "natural" ∨ r.type = "notehead" := by
  cases hp : findChild n (mxTag "pitch") with
  | none => simp [pitchRecords, hp] at h; subst h; simp
  | some pitch =>
    cases ha : findChild pitch (mxTag "alter") with
    | none =>
      simp [pitchRecords, hp, ha] at h
      subst h
      simp [mxRec]
    | some alter =>
      cases ht : alter.text with
      | none => simp [pitchRecords, hp, ha, ht] at h
      | some t =>
        cases hv : pyFloat? t with
        | none => simp [pitchRecords, hp, ha, ht, hv] at h
        | some v =>
          simp only [pitchRecords, hp, ha, ht, hv] at h
          split_ifs at h <;>
            (simp only [Except.ok.injEq] at h; subst h; intro r hr;
              fin_cases hr <;> simp [mxRec])

lemma accidentalRecords_types {n : XElem} {l : List SymbolRec}
    (h : accidentalRecords n = .ok l) :
    ∀ r ∈ l, r.type = "sharp" ∨ r.type = "flat" ∨ r.type = "natural" ∨ r.type = "notehead" := by
  cases ha : findChild n (mxTag "accidental") with
  | none => simp [accidentalRecords, ha] at h; subst h; simp
  | some accidental =>
    cases ht : accidental.text with
    | none => simp [accidentalRecords, ha, ht] at h
    | some t =>
      simp only [accidentalRecords, ha, ht] at h
      split_ifs at h <;>
        (simp only [Except.ok.injEq] at h; subst h; intro r hr;
          fin_cases hr <;> simp [mxRec])

lemma noteRecords_types {n : XElem} {l : List SymbolRec}
    (h : noteRecords n = .ok l) :
    ∀ r ∈ l, r.type = "sharp" ∨ r.type = "flat" ∨ r.type = "natural" ∨ r.type = "notehead" := by
  cases hp : pitchRecords n with
  | error u => simp [noteRecords, hp] at h
  | ok ps =>
    cases ha : accidentalRecords n with
    | error u => simp [noteRecords, hp, ha] at h
    | ok qs =>
      simp only [noteRecords, hp, ha, Except.ok.injEq] at h
      subst h
      intro r hr
      rcases List.mem_append.mp hr with hr | hr
      · exact pitchRecords_types hp r hr
      · exact accidentalRecords_types ha r hr

lemma notesLoop_types {ns : List XElem} {l : List SymbolRec}
    (h : notesLoop ns = .ok l) :
    ∀ r ∈ l, r.type = "sharp" ∨ r.type = "flat" ∨ r.type = "natural" ∨ r.type = "notehead" := by
  induction ns generalizing l with
  | nil => simp [notesLoop] at h; subst h; simp
  | cons n ns ih =>
    cases hn : noteRecords n with
    | error u => simp [notesLoop, hn] at h
    | ok rs =>
      cases hrest : notesLoop ns with
      | error u => simp [notesLoop, hn, hrest] at h
      | ok more =>
        simp only [notesLoop, hn, hrest, Except.ok.injEq] at h
        subst h
        intro r hr
        rcases List.mem_append.mp hr with hr | hr
        · exact noteRecords_types hn r hr
        · exact ih hrest r hr

lemma estLoop_length (l : List SymbolRec) : ∀ n, (estLoop n l).length = l.length := by
  induction l with
  | nil => intro n; rfl
  | cons s rest ih => intro n; simp [estLoop, ih]

lemma estLoop_getElem? (l : List SymbolRec) :
    ∀ (n i : Nat),
      (estLoop n l)[i]? = (l[i]?).map (fun s =>
        { type := s.type,
          bbox := some (100 + ((n + i : Nat) : Int) * 50, 100,
                        120 + ((n + i : Nat) : Int) * 50, 120),
          shape := none, estimated := true }) := by
  induction l with
  | nil => intro n i; simp [estLoop]
  | cons s rest ih =>
    intro n i
    cases i with
    | zero => simp [estLoop]
    | succ j =>
      simp only [estLoop, List.getElem?_cons_succ]
      rw [ih (n + 1) j]
      have : n + 1 + j = n + (j + 1) := by omega
      rw [this]

lemma estLoop_mem {l : List SymbolRec} {r : SymbolRec} :
    ∀ n, r ∈ estLoop n l → (∃ s ∈ l, r.type = s.type) ∧ r.bbox.isSome := by
  induction l with
  | nil => intro n hr; simp [estLoop] at hr
  | cons s rest ih =>
    intro n hr
    rcases List.mem_cons.mp hr with rfl | hr
    · exact ⟨⟨s, by simp, rfl⟩, rfl⟩
    · obtain ⟨⟨s', hs', hty⟩, hb⟩ := ih (n + 1) hr
      exact ⟨⟨s', by simp [hs'], hty⟩, hb⟩

lemma coordE_spec {b : XElem} {key : String} {dflt v : Int}
    (h : (∃ s, getAttr b key = some s ∧ pyInt? s = some v)
          ∨ (getAttr b key = none ∧ v = dflt)) :
    coordE b key dflt = .ok v := by
  rcases h with ⟨s, hs, hv⟩ | ⟨hn, rfl⟩
  · simp [coordE, hs, hv]
  · simp [coordE, hn]

lemma interRecordV1_bbox {e : XElem} {r : SymbolRec}
    (h : interRecordV1 e = .ok (some r)) :
    ∃ bd bbox, findChild e "bounds" = some bd ∧ boundsBBox bd = .ok bbox
      ∧ r.bbox = some bbox := by
  cases hc : classifyV1 (getAttrD e "shape" "") with
  | none => simp [interRecordV1, hc] at h
  | some ty =>
    cases hf : findChild e "bounds" with
    | none => simp [interRecordV1, hc, hf] at h
    | some b =>
      cases hb : boundsBBox b with
      | error u => simp [interRecordV1, hc, hf, hb] at h
      | ok bbox =>
        simp only [interRecordV1, hc, hf, hb, Except.ok.injEq, Option.some.injEq] at h
        subst h
        exact ⟨b, bbox, rfl, hb, rfl⟩

lemma headRecord_bbox {e : XElem} {r : SymbolRec}
    (h : headRecord e = .ok (some r)) :
    ∃ bd bbox, findChild e "bounds" = some bd ∧ boundsBBox bd = .ok bbox
      ∧ r.bbox = some bbox := by
  cases hf : findChild e "bounds" with
  | none => simp [headRecord, hf] at h
  | some b =>
    cases hb : boundsBBox b with
    | error u => simp [headRecord, hf, hb] at h
    | ok bbox =>
      simp only [headRecord, hf, hb, Except.ok.injEq, Option.some.injEq] at h
      subst h
      exact ⟨b, bbox, rfl, hb, rfl⟩

lemma keyAlterRecord_bbox {e : XElem} {r : SymbolRec}
    (h : keyAlterRecord e = .ok (some r)) :
    ∃ bd bbox, findChild e "bounds" = some bd ∧ boundsBBox bd = .ok bbox
      ∧ r.bbox = some bbox := by
  cases hf : findChild e "bounds" with
  | none => simp [keyAlterRecord, hf] at h
  | some b =>
    cases hc : classify_symbol (getAttrD e "shape" "") with
    | none => simp [keyAlterRecord, hf, hc] at h
    | some ty =>
      cases hb : boundsBBox b with
      | error u => simp [keyAlterRecord, hf, hc, hb] at h
      | ok bbox =>
        simp only [keyAlterRecord, hf, hc, hb, Except.ok.injEq, Option.some.injEq] at h
        subst h
        exact ⟨b, bbox, rfl, hb, rfl⟩

lemma interRecordV2_bbox {e : XElem} {r : SymbolRec}
    (h : interRecordV2 e = .ok (some r)) :
    ∃ bd bbox, findChild e "bounds" = some bd ∧ boundsBBox bd = .ok bbox
      ∧ r.bbox = some bbox := by
  by_cases hpre :
      (pyIn "SHARP" (getAttrD e "shape" "") || pyIn "FLAT" (getAttrD e "shape" "")
        || pyIn "NATURAL" (getAttrD e "shape" "")) = true
  · cases hf : findChild e "bounds" with
    | none => simp [interRecordV2, hpre, hf] at h
    | some b =>
      cases hc : classify_symbol (getAttrD e "shape" "") with
      | none => simp [interRecordV2, hpre, hf, hc] at h
      | some ty =>
        cases hb : boundsBBox b with
        | error u => simp [interRecordV2, hpre, hf, hc, hb] at h
        | ok bbox =>
          simp only [interRecordV2, hpre, if_true, hf, hc, hb, Except.ok.injEq,
            Option.some.injEq] at h
          subst h
          exact ⟨b, bbox, rfl, hb, rfl⟩
  · simp [interRecordV2, hpre] at h

/-! ## Claims -/

/-- C8: for every shape string, the inline classification of v1
`_parse_omr_book` (substring tests for sharp, flat, natural, then
notehead-or-head on the lowercased shape, in that order) returns exactly
the same symbol type, or absence of one, as v2 `_classify_symbol`. -/
theorem c8_classifications_agree (shape : String) :
    classifyV1 shape = classify_symbol shape :=
  classify_agree shape

/-- C2: for every recognized inter/head/key-alter element whose `bounds`
child carries integer attributes `x, y, w, h`, the appended record has
bbox `(x, y, x + w, y + h)`; an absent attribute defaults `x`/`y` to `0`
and `w`/`h` to `20`.  The first conjunct computes the tuple from the
attributes with those defaults; the remaining conjuncts show every record
appended by the four parsing loops carries exactly the tuple built from
its element's `bounds` child. -/
theorem c2_bbox_construction (b : XElem) (x y w h : Int)
    (hx : (∃ s, getAttr b "x" = some s ∧ pyInt? s = some x)
          ∨ (getAttr b "x" = none ∧ x = 0))
    (hy : (∃ s, getAttr b "y" = some s ∧ pyInt? s = some y)
          ∨ (getAttr b "y" = none ∧ y = 0))
    (hw : (∃ s, getAttr b "w" = some s ∧ pyInt? s = some w)
          ∨ (getAttr b "w" = none ∧ w = 20))
    (hh : (∃ s, getAttr b "h" = some s ∧ pyInt? s = some h)
          ∨ (getAttr b "h" = none ∧ h = 20)) :
    boundsBBox b = .ok (x, y, x + w, y + h)
    ∧ (∀ e r, interRecordV1 e = .ok (some r) →
        ∃ bd bbox, findChild e "bounds" = some bd ∧ boundsBBox bd = .ok bbox
          ∧ r.bbox = some bbox)
    ∧ (∀ e r, headRecord e = .ok (some r) →
        ∃ bd bbox, findChild e "bounds" = some bd ∧ boundsBBox bd = .ok bbox
          ∧ r.bbox = some bbox)
    ∧ (∀ e r, keyAlterRecord e = .ok (some r) →
        ∃ bd bbox, findChild e "bounds" = some bd ∧ boundsBBox bd = .ok bbox
          ∧ r.bbox = some bbox)
    ∧ (∀ e r, interRecordV2 e = .ok (some r) →
        ∃ bd bbox, findChild e "bounds" = some bd ∧ boundsBBox bd = .ok bbox
          ∧ r.bbox = some bbox) := by
  refine ⟨?_, fun e r hr => interRecordV1_bbox hr, fun e r hr => headRecord_bbox hr,
    fun e r hr => keyAlterRecord_bbox hr, fun e r hr => interRecordV2_bbox hr⟩
  simp [boundsBBox, coordE_spec hx, coordE_spec hy, coordE_spec hw, coordE_spec hh]

/-- Witness for C2 at a concrete `bounds` element with `x`, `w`, `h`
present and `y` absent. -/
theorem c2_bbox_construction_witness :
    boundsBBox (XElem.node "bounds" [("x", "3"), ("w", "10"), ("h", "12")] none [])
      = .ok (3, 0, 13, 12) :=
  (c2_bbox_construction (XElem.node "bounds" [("x", "3"), ("w", "10"), ("h", "12")] none [])
    3 0 10 12
    (Or.inl ⟨"3", by decide, by decide⟩)
    (Or.inr ⟨by decide, rfl⟩)
    (Or.inl ⟨"10", by decide, by decide⟩)
    (Or.inl ⟨"12", by decide, by decide⟩)).1

lemma parse_omr_book_sound {c : Option XElem} {r : SymbolRec}
    (h : r ∈ parse_omr_book c) :
    (r.type = "sharp" ∨ r.type = "flat" ∨ r.type = "natural" ∨ r.type = "notehead")
      ∧ r.bbox.isSome := by
  cases c with
  | none => simp [parse_omr_book] at h
  | some root =>
    exact settle_runLoop_mem interRecordV1
      (fun r => (r.type = "sharp" ∨ r.type = "flat" ∨ r.type = "natural"
        ∨ r.type = "notehead") ∧ r.bbox.isSome)
      (fun e r hr => interRecordV1_sound hr)
      (descTag root "inter") [] (by simp) r h

lemma sheetBody_sound {root : XElem} {r : SymbolRec}
    (h : r ∈ settle (sheetBody root)) :
    (r.type = "sharp" ∨ r.type = "flat" ∨ r.type = "natural" ∨ r.type = "notehead")
      ∧ r.bbox.isSome := by
  cases hs : findSigInters root with
  | none => simp [sheetBody, hs, settle] at h
  | some inters =>
    cases h1 : runLoop headRecord (descTag inters "head") [] with
    | error l =>
      simp only [sheetBody, hs, h1, settle] at h
      have := settle_runLoop_mem headRecord
        (fun r => (r.type = "sharp" ∨ r.type = "flat" ∨ r.type = "natural"
          ∨ r.type = "notehead") ∧ r.bbox.isSome)
        (fun e r hr => headRecord_sound hr)
        (descTag inters "head") [] (by simp) r
      rw [h1] at this
      exact this h
    | ok l1 =>
      have hl1 := runLoop_ok_mem headRecord
        (fun r => (r.type = "sharp" ∨ r.type = "flat" ∨ r.type = "natural"
          ∨ r.type = "notehead") ∧ r.bbox.isSome)
        (fun e r hr => headRecord_sound hr) (by simp) h1
      cases h2 : runLoop keyAlterRecord (descTag inters "key-alter") l1 with
      | error l =>
        simp only [sheetBody, hs, h1, h2, settle] at h
        have := settle_runLoop_mem keyAlterRecord
          (fun r => (r.type = "sharp" ∨ r.type = "flat" ∨ r.type = "natural"
            ∨ r.type = "notehead") ∧ r.bbox.isSome)
          (fun e r hr => keyAlterRecord_sound hr)
          (descTag inters "key-alter") l1 hl1 r
        rw [h2] at this
        exact this h
      | ok l2 =>
        have hl2 := runLoop_ok_mem keyAlterRecord
          (fun r => (r.type = "sharp" ∨ r.type = "flat" ∨ r.type = "natural"
            ∨ r.type = "notehead") ∧ r.bbox.isSome)
          (fun e r hr => keyAlterRecord_sound hr) hl1 h2
        simp only [sheetBody, hs, h1, h2] at h
        exact settle_runLoop_mem interRecordV2
          (fun r => (r.type = "sharp" ∨ r.type = "flat" ∨ r.type = "natural"
            ∨ r.type = "notehead") ∧ r.bbox.isSome)
          (fun e r hr => interRecordV2_sound hr)
          (descTag inters "inter") l2 hl2 r h

lemma parse_sheet_xml_sound {c : Option XElem} {r : SymbolRec}
    (h : r ∈ parse_sheet_xml c) :
    (r.type = "sharp" ∨ r.type = "flat" ∨ r.type = "natural" ∨ r.type = "notehead")
      ∧ r.bbox.isSome := by
  cases c with
  | none => simp [parse_sheet_xml] at h
  | some root => exact sheetBody_sound h

/-- C1: every list returned by v1 `_parse_omr_output` and v2
`_parse_omr_file` contains only uniform symbol records: the `'type'` field
is one of `sharp`, `flat`, `natural`, `notehead`, and a `'bbox'` field (a
4-tuple of integers) is present — on every path, including the v1 path
where MusicXML-derived records without coordinates are replaced before
being returned. -/
theorem c1_uniform_records (env : V1Env) (sheets : Option (List (Option XElem)))
    (r : SymbolRec)
    (h : r ∈ parse_omr_output env ∨ r ∈ parse_omr_file sheets) :
    (r.type = "sharp" ∨ r.type = "flat" ∨ r.type = "natural" ∨ r.type = "notehead")
      ∧ r.bbox.isSome := by
  rcases h with h | h
  · cases ho : outputBody env with
    | error u =>
      unfold parse_omr_output at h
      rw [ho] at h
      simp [parse_alternative] at h
    | ok syms =>
      simp only [parse_omr_output, ho] at h
      cases hm : env.mxl with
      | none => simp [outputBody, hm] at ho
      | some root =>
        cases hn : notesLoop (mxNotes root) with
        | error u => simp [outputBody, hm, hn] at ho
        | ok mxSyms =>
          cases hb : env.book with
          | some content =>
            simp only [outputBody, hm, hn, hb, Except.ok.injEq] at ho
            subst ho
            exact parse_omr_book_sound h
          | none =>
            simp only [outputBody, hm, hn, hb, Except.ok.injEq] at ho
            subst ho
            obtain ⟨⟨s, hs, hty⟩, hbb⟩ := estLoop_mem 0 h
            refine ⟨?_, hbb⟩
            rw [hty]
            exact notesLoop_types hn s hs
  · cases sheets with
    | none => simp [parse_omr_file] at h
    | some cs =>
      simp only [parse_omr_file, List.mem_flatten] at h
      obtain ⟨l, hl, hr⟩ := h
      obtain ⟨c, hc, rfl⟩ := List.mem_map.mp hl
      exact parse_sheet_xml_sound hr

/-- Witness for C1: a concrete v1 environment whose book file holds one
`Sharp` inter produces a uniform record. -/
theorem c1_uniform_records_witness :
    (({ type := "sharp", bbox := some (1, 2, 4, 6), shape := some "Sharp",
        estimated := false } : SymbolRec).type = "sharp"
      ∨ ({ type := "sharp", bbox := some (1, 2, 4, 6), shape := some "Sharp",
           estimated := false } : SymbolRec).type = "flat"
      ∨ ({ type := "sharp", bbox := some (1, 2, 4, 6), shape := some "Sharp",
           estimated := false } : SymbolRec).type = "natural"
      ∨ ({ type := "sharp", bbox := some (1, 2, 4, 6), shape := some "Sharp",
           estimated := false } : SymbolRec).type = "notehead")
    ∧ ({ type := "sharp", bbox := some (1, 2, 4, 6), shape := some "Sharp",
         estimated := false } : SymbolRec).bbox.isSome :=
  c1_uniform_records
    { mxl := some (.node "score" [] none []),
      book := some (some (.node "book" [] none
        [.node "inter" [("shape", "Sharp")] none
          [.node "bounds" [("x", "1"), ("y", "2"), ("w", "3"), ("h", "4")] none []]])) }
    none
    { type := "sharp", bbox := some (1, 2, 4, 6), shape := some "Sharp",
      estimated := false }
    (Or.inl (by decide))

/-- C3: no parsing operation propagates an exception: on any raise, v1
`_parse_omr_output` falls back to `_parse_alternative` (the empty list);
v1 `_parse_omr_book` returns the records collected before the failure (a
parse failure of the book file yields `[]`, a failing loop iteration
yields the records of the successfully processed prefix); v2
`_parse_omr_file` (and its `_parse_sheet_xml` helper) likewise return the
records collected before the failure — the empty list when the archive or
sheet XML cannot be read. -/
theorem c3_exceptions_contained :
    parse_alternative = []
    ∧ (∀ env : V1Env, outputBody env = .error () →
        parse_omr_output env = parse_alternative)
    ∧ parse_omr_book none = []
    ∧ (∀ root : XElem, ∃ pre suf,
        descTag root "inter" = pre ++ suf
        ∧ (∀ e ∈ pre, ∃ o, interRecordV1 e = .ok o)
        ∧ parse_omr_book (some root)
            = pre.filterMap (fun e =>
                match interRecordV1 e with
                | .ok o => o
                | .error _ => none)
        ∧ (∀ e, suf.head? = some e → interRecordV1 e = .error ()))
    ∧ parse_omr_file none = []
    ∧ parse_sheet_xml none = [] := by
  refine ⟨rfl, ?_, rfl, ?_, rfl, rfl⟩
  · intro env h
    simp [parse_omr_output, h]
  · intro root
    obtain ⟨pre, suf, hsplit, hok, hval, hsuf⟩ :=
      runLoop_prefix interRecordV1 (descTag root "inter") []
    refine ⟨pre, suf, hsplit, hok, ?_, hsuf⟩
    simpa [parse_omr_book] using hval

/-- Witness for C3: a missing or unreadable MusicXML file makes v1
`_parse_omr_output` return the empty fallback list. -/
theorem c3_exceptions_contained_witness :
    parse_omr_output { mxl := none, book := none } = [] :=
  c3_exceptions_contained.2.1 { mxl := none, book := none } rfl

/-- C4: when the MusicXML parse succeeds but the Audiveris book file does
not exist, v1 replaces the `n` parsed symbols by `n` estimated records:
the `i`-th output keeps the `i`-th input's type, has bbox
`(100 + 50 i, 100, 120 + 50 i, 120)` and is marked `estimated`. -/
theorem c4_estimated_positions (env : V1Env) (root : XElem)
    (syms : List SymbolRec) (i : Nat) (s : SymbolRec)
    (hm : env.mxl = some root) (hb : env.book = none)
    (hok : notesLoop (mxNotes root) = .ok syms)
    (hs : syms[i]? = some s) :
    (parse_omr_output env).length = syms.length
    ∧ (parse_omr_output env)[i]?
        = some { type := s.type,
                 bbox := some (100 + 50 * (i : Int), 100, 120 + 50 * (i : Int), 120),
                 shape := none, estimated := true } := by
  have hout : parse_omr_output env = estimate_positions syms := by
    simp [parse_omr_output, outputBody, hm, hok, hb]
  rw [hout]
  constructor
  · exact estLoop_length syms 0
  · unfold estimate_positions
    rw [estLoop_getElem? syms 0 i, hs]
    simp [Int.mul_comm]

/-- Witness for C4 on a one-note score without coordinates. -/
theorem c4_estimated_positions_witness :
    (parse_omr_output
        { mxl := some (.node "score" [] none
            [.node (mxTag "note") [] none [.node (mxTag "pitch") [] none []]]),
          book := none }).length = 1
    ∧ (parse_omr_output
        { mxl := some (.node "score" [] none
            [.node (mxTag "note") [] none [.node (mxTag "pitch") [] none []]]),
          book := none })[0]?
        = some { type := ({ type := "notehead" } : SymbolRec).type,
                 bbox := some (100 + 50 * ((0 : Nat) : Int), 100,
                               120 + 50 * ((0 : Nat) : Int), 120),
                 shape := none, estimated := true } := by
  have h := c4_estimated_positions
    { mxl := some (.node "score" [] none
        [.node (mxTag "note") [] none [.node (mxTag "pitch") [] none []]]),
      book := none }
    (.node "score" [] none
      [.node (mxTag "note") [] none [.node (mxTag "pitch") [] none []]])
    [{ type := "notehead" }] 0 { type := "notehead" }
    rfl rfl (by rfl) (by rfl)
  simpa using h

lemma dictGet_TARGET_SYMBOLS_none {t : String}
    (h1 : t ≠ "sharp") (h2 : t ≠ "flat") (h3 : t ≠ "natural") (h4 : t ≠ "notehead") :
    dictGet TARGET_SYMBOLS t = none := by
  have e1 : (("sharp" : String) == t) = false := beq_eq_false_iff_ne.mpr (Ne.symm h1)
  have e2 : (("flat" : String) == t) = false := beq_eq_false_iff_ne.mpr (Ne.symm h2)
  have e3 : (("natural" : String) == t) = false := beq_eq_false_iff_ne.mpr (Ne.symm h3)
  have e4 : (("notehead" : String) == t) = false := beq_eq_false_iff_ne.mpr (Ne.symm h4)
  simp [dictGet, TARGET_SYMBOLS, List.find?, e1, e2, e3, e4]

/-- C6: in `_draw_bounding_boxes` (both versions) a rectangle and a text
label are drawn for a symbol record exactly when its type is one of the
four target types and its bbox is present; the outline and label-background
color is a function of the type alone (sharp `#FF0000`, flat `#00FF00`,
natural `#0000FF`, notehead `#FF00FF`) and the label is the type's
one-character tag (`#`, `b`, `n`, `o`). -/
theorem c6_draw_characterization (cfg : DrawCfg) (img : Img) (s : SymbolRec) :
    ((s.type ≠ "sharp" ∧ s.type ≠ "flat" ∧ s.type ≠ "natural" ∧ s.type ≠ "notehead")
        ∨ s.bbox = none →
      drawSymbolV1 cfg img s = img ∧ drawSymbolV2 cfg img s = img)
    ∧ (∀ bb t c l, s.bbox = some bb →
        (t, c, l) ∈ [("sharp", "#FF0000", "#"), ("flat", "#00FF00", "b"),
                     ("natural", "#0000FF", "n"), ("notehead", "#FF00FF", "o")] →
        s.type = t →
        drawSymbolV1 cfg img s
          = Img.text (Img.fillRect (Img.rect img bb c 3)
              (cfg.tb (bb.1, bb.2.1 - 25) l) c) (bb.1, bb.2.1 - 25) l "white"
        ∧ drawSymbolV2 cfg img s
          = Img.text (Img.fillRect (Img.rect img bb c 3)
              (cfg.tb (bb.1, max (bb.2.1 - 30) 0) l) c)
              (bb.1, max (bb.2.1 - 30) 0) l "white") := by
  constructor
  · rintro (⟨h1, h2, h3, h4⟩ | hb)
    · have hd := dictGet_TARGET_SYMBOLS_none h1 h2 h3 h4
      constructor <;> simp [drawSymbolV1, drawSymbolV2, hd]
    · by_cases hd : (dictGet TARGET_SYMBOLS s.type).isNone <;>
        constructor <;> simp [drawSymbolV1, drawSymbolV2, hd, hb]
  · intro bb t c l hbb hmem hty
    fin_cases hmem <;>
      exact ⟨by simp [drawSymbolV1, hbb, hty, dictGet, TARGET_SYMBOLS, COLORS, List.find?],
             by simp [drawSymbolV2, hbb, hty, dictGet, TARGET_SYMBOLS, COLORS, List.find?]⟩

/-- Witness for C6: a concrete flat symbol is drawn with the green outline
and the `b` label in both versions. -/
theorem c6_draw_characterization_witness :
    drawSymbolV1 ⟨fun _ _ => (0, 0, 0, 0), fun _ _ => (0, 0, 0, 0)⟩ (Img.load "bg")
        { type := "flat", bbox := some (5, 40, 9, 44) }
      = Img.text (Img.fillRect (Img.rect (Img.load "bg") (5, 40, 9, 44) "#00FF00" 3)
          (0, 0, 0, 0) "#00FF00") (5, 15) "b" "white"
    ∧ drawSymbolV2 ⟨fun _ _ => (0, 0, 0, 0), fun _ _ => (0, 0, 0, 0)⟩ (Img.load "bg")
        { type := "flat", bbox := some (5, 40, 9, 44) }
      = Img.text (Img.fillRect (Img.rect (Img.load "bg") (5, 40, 9, 44) "#00FF00" 3)
          (0, 0, 0, 0) "#00FF00") (5, 10) "b" "white" := by
  have h := (c6_draw_characterization
    ⟨fun _ _ => (0, 0, 0, 0), fun _ _ => (0, 0, 0, 0)⟩ (Img.load "bg")
    { type := "flat", bbox := some (5, 40, 9, 44) }).2
    (5, 40, 9, 44) "flat" "#00FF00" "b" rfl (by decide) rfl
  simpa using h

/-- C7: when no Audiveris path is supplied and none can be located (v1: no
candidate path exists and the `which` lookup fails; v2: the constructor
received `None`), `_run_audiveris` raises a `RuntimeError` having created
no output directory and launched no subprocess. -/
theorem c7_no_audiveris_raises (fenv : FindEnv) (img : PyPath)
    (re1 : RunEnvV1) (re2 : RunEnvV2)
    (h1 : ∀ p ∈ possiblePaths fenv.home, fenv.pathTest p = false)
    (h2 : ∀ rc out, fenv.which = some (rc, out) → rc ≠ 0) :
    initPathV1 none fenv = none
    ∧ run_audiveris_v1 (initPathV1 none fenv) img re1 = ([], .error ())
    ∧ run_audiveris_v2 none img re2 = ([], .error ()) := by
  have hfind : (possiblePaths fenv.home).find? fenv.pathTest = none := by
    apply List.find?_eq_none.mpr
    intro p hp
    simp [h1 p hp]
  have hf : find_audiveris fenv = none := by
    cases hw : fenv.which with
    | none => simp [find_audiveris, hfind, hw]
    | some pr =>
      obtain ⟨rc, out⟩ := pr
      simp [find_audiveris, hfind, hw, h2 rc out hw]
  refine ⟨hf, ?_, rfl⟩
  show run_audiveris_v1 (find_audiveris fenv) img re1 = ([], .error ())
  rw [hf]
  rfl

/-- Witness for C7 in an environment where nothing exists and `which`
raises. -/
theorem c7_no_audiveris_raises_witness :
    run_audiveris_v1 (initPathV1 none ⟨"/root", fun _ => false, none⟩)
        ⟨[], "score.png"⟩ ⟨some 0, true, true⟩ = ([], .error ())
    ∧ run_audiveris_v2 none ⟨[], "score.png"⟩ ⟨some 0, true⟩ = ([], .error ()) := by
  have h := c7_no_audiveris_raises ⟨"/root", fun _ => false, none⟩
    ⟨[], "score.png"⟩ ⟨some 0, true, true⟩ ⟨some 0, true⟩
    (fun p _ => rfl) (fun rc out hw => by cases hw)
  exact ⟨h.2.1, h.2.2⟩

/-- C9: on an input path naming no existing file, `process_image` (both
versions) raises `FileNotFoundError` with the filesystem unchanged; the
result does not depend on the recognizer outcome or the requested output
path, so no subprocess ran and no output file was created. -/
theorem c9_missing_input (cfg : DrawCfg) (fs : PyPath → Option Img)
    (aud : Except Unit (List SymbolRec)) (image_path : PyPath)
    (output_path : Option PyPath)
    (h : fs image_path = none) :
    process_image_v1 cfg fs aud image_path output_path = (fs, .error .fileNotFound)
    ∧ process_image_v2 cfg fs aud image_path output_path = (fs, .error .fileNotFound) := by
  constructor <;> simp [process_image_v1, process_image_v2, h]

/-- Witness for C9 on an empty filesystem. -/
theorem c9_missing_input_witness :
    process_image_v1 ⟨fun _ _ => (0, 0, 0, 0), fun _ _ => (0, 0, 0, 0)⟩
        (fun _ => none) (.ok []) ⟨[], "x.png"⟩ none
      = ((fun _ => none), .error .fileNotFound)
    ∧ process_image_v2 ⟨fun _ _ => (0, 0, 0, 0), fun _ _ => (0, 0, 0, 0)⟩
        (fun _ => none) (.ok []) ⟨[], "x.png"⟩ none
      = ((fun _ => none), .error .fileNotFound) :=
  c9_missing_input ⟨fun _ _ => (0, 0, 0, 0), fun _ _ => (0, 0, 0, 0)⟩
    (fun _ => none) (.ok []) ⟨[], "x.png"⟩ none rfl

lemma defaultOutput_ne (p : PyPath) : defaultOutput p ≠ p := by
  intro h
  have hb : pyStem p.base ++ "_detected" ++ pySuffix p.base = p.base :=
    congrArg PyPath.base h
  have hss : (pyStem p.base).length + (pySuffix p.base).length = p.base.length := by
    have := congrArg String.length (pyStem_append_pySuffix p.base)
    simpa [String.length_append] using this
  have hlen := congrArg String.length hb
  have h9 : ("_detected" : String).length = 9 := rfl
  simp only [String.length_append, h9] at hlen
  omega

/-- C5 (amended): `process_image` (both versions) writes no path other than
the output path; the annotations are drawn on the in-memory opened input
image and the result saved at the output path, which is also the return
value; when `output_path` is omitted it defaults to the sibling
`stem_detected suffix` file, which never equals the input path, so the
input file is unmodified whenever the output path differs from the input
path — in particular always in the defaulted case. -/
theorem c5_output_effects (cfg : DrawCfg) (fs : PyPath → Option Img)
    (aud : Except Unit (List SymbolRec)) (image_path : PyPath)
    (output_path : Option PyPath) (out : PyPath)
    (hout : out = output_path.getD (defaultOutput image_path)) :
    (∀ q, q ≠ out → (process_image_v1 cfg fs aud image_path output_path).1 q = fs q)
    ∧ (∀ q, q ≠ out → (process_image_v2 cfg fs aud image_path output_path).1 q = fs q)
    ∧ (output_path = none →
        out.dir = image_path.dir
        ∧ out.base = pyStem image_path.base ++ "_detected" ++ pySuffix image_path.base
        ∧ out ≠ image_path)
    ∧ (out ≠ image_path →
        (process_image_v1 cfg fs aud image_path output_path).1 image_path
          = fs image_path
        ∧ (process_image_v2 cfg fs aud image_path output_path).1 image_path
          = fs image_path)
    ∧ (∀ img syms, fs image_path = some img → aud = .ok syms →
        process_image_v1 cfg fs aud image_path output_path
          = (updateMap fs out (draw_bounding_boxes_v1 cfg img syms), .ok out)
        ∧ process_image_v2 cfg fs aud image_path output_path
          = (updateMap fs out (draw_bounding_boxes_v2 cfg img syms), .ok out)) := by
  subst hout
  have frame1 : ∀ q, q ≠ output_path.getD (defaultOutput image_path) →
      (process_image_v1 cfg fs aud image_path output_path).1 q = fs q := by
    intro q hq
    cases hfs : fs image_path with
    | none => simp [process_image_v1, hfs]
    | some img =>
      cases aud with
      | error u => simp [process_image_v1, hfs]
      | ok syms => simp [process_image_v1, hfs, updateMap, hq]
  have frame2 : ∀ q, q ≠ output_path.getD (defaultOutput image_path) →
      (process_image_v2 cfg fs aud image_path output_path).1 q = fs q := by
    intro q hq
    cases hfs : fs image_path with
    | none => simp [process_image_v2, hfs]
    | some img =>
      cases aud with
      | error u => simp [process_image_v2, hfs]
      | ok syms => simp [process_image_v2, hfs, updateMap, hq]
  refine ⟨frame1, frame2, ?_, ?_, ?_⟩
  · intro h
    subst h
    exact ⟨rfl, rfl, defaultOutput_ne image_path⟩
  · intro hne
    exact ⟨frame1 image_path (fun h => hne h.symm),
           frame2 image_path (fun h => hne h.symm)⟩
  · intro img syms hfs haud
    subst haud
    constructor <;> simp [process_image_v1, process_image_v2, hfs]

/-- Witness for C5 at a concrete defaulted call: a sibling path distinct
from both input and output is untouched. -/
theorem c5_output_effects_witness :
    (process_image_v1 ⟨fun _ _ => (0, 0, 0, 0), fun _ _ => (0, 0, 0, 0)⟩
        (fun _ => none) (.ok []) ⟨[], "a.png"⟩ none).1 ⟨[], "other.png"⟩
      = (fun _ : PyPath => (none : Option Img)) ⟨[], "other.png"⟩ :=
  (c5_output_effects ⟨fun _ _ => (0, 0, 0, 0), fun _ _ => (0, 0, 0, 0)⟩
      (fun _ => none) (.ok []) ⟨[], "a.png"⟩ none ⟨[], "a_detected.png"⟩
      (by decide)).1 ⟨[], "other.png"⟩ (by decide)

/-- Counterexample to C5 as stated: calling `process_image` with
`output_path` equal to the input path overwrites the input image file. -/
theorem c5_counterexample :
    (process_image_v1 ⟨fun _ _ => (0, 0, 0, 0), fun _ _ => (0, 0, 0, 0)⟩
        (fun q => if q = ⟨[], "a.png"⟩ then some (Img.load "orig") else none)
        (.ok [{ type := "sharp", bbox := some (0, 0, 1, 1) }])
        ⟨[], "a.png"⟩ (some ⟨[], "a.png"⟩)).1 ⟨[], "a.png"⟩
      ≠ (fun q => if q = (⟨[], "a.png"⟩ : PyPath) then some (Img.load "orig") else none)
          (⟨[], "a.png"⟩ : PyPath) := by
  decide

/-- C10 (amended): `upscale_image` saves at the output path an image of
dimensions exactly `(W * scale_factor, H * scale_factor)`, returns the
output path, touches no other path, and leaves the input file unchanged
whenever the output path differs from the input path. -/
theorem c10_upscale (fs : PyPath → Option UImage) (input_path output_path : PyPath)
    (scale_factor : Nat) (img : UImage)
    (himg : fs input_path = some img) (_hpos : 0 < scale_factor) :
    (upscale_image fs input_path output_path scale_factor).2 = .ok output_path
    ∧ (∃ out, (upscale_image fs input_path output_path scale_factor).1 output_path
          = some out
        ∧ uwidth out = uwidth img * scale_factor
        ∧ uheight out = uheight img * scale_factor)
    ∧ (∀ q, q ≠ output_path →
        (upscale_image fs input_path output_path scale_factor).1 q = fs q)
    ∧ (input_path ≠ output_path →
        (upscale_image fs input_path output_path scale_factor).1 input_path
          = fs input_path) := by
  refine ⟨?_,
    ⟨UImage.resized img (uwidth img * scale_factor) (uheight img * scale_factor),
      ?_, rfl, rfl⟩, ?_, ?_⟩
  · simp [upscale_image, himg]
  · simp [upscale_image, himg, updateMap]
  · intro q hq
    simp [upscale_image, himg, updateMap, hq]
  · intro hne
    simp [upscale_image, himg, updateMap, hne]

/-- Witness for C10 upscaling a 2-by-3 image by 4 to a distinct output
path. -/
theorem c10_upscale_witness :
    (upscale_image
        (fun q => if q = ⟨[], "a.png"⟩ then some (UImage.src 2 3 "px") else none)
        ⟨[], "a.png"⟩ ⟨[], "b.png"⟩ 4).2 = .ok ⟨[], "b.png"⟩
    ∧ (∃ out, (upscale_image
        (fun q => if q = ⟨[], "a.png"⟩ then some (UImage.src 2 3 "px") else none)
        ⟨[], "a.png"⟩ ⟨[], "b.png"⟩ 4).1 ⟨[], "b.png"⟩ = some out
        ∧ uwidth out = 8 ∧ uheight out = 12)
    ∧ (∀ q, q ≠ (⟨[], "b.png"⟩ : PyPath) →
        (upscale_image
          (fun q => if q = ⟨[], "a.png"⟩ then some (UImage.src 2 3 "px") else none)
          ⟨[], "a.png"⟩ ⟨[], "b.png"⟩ 4).1 q
          = (fun q => if q = (⟨[], "a.png"⟩ : PyPath)
              then some (UImage.src 2 3 "px") else none) q)
    ∧ ((⟨[], "a.png"⟩ : PyPath) ≠ ⟨[], "b.png"⟩ →
        (upscale_image
          (fun q => if q = ⟨[], "a.png"⟩ then some (UImage.src 2 3 "px") else none)
          ⟨[], "a.png"⟩ ⟨[], "b.png"⟩ 4).1 ⟨[], "a.png"⟩
          = (fun q => if q = (⟨[], "a.png"⟩ : PyPath)
              then some (UImage.src 2 3 "px") else none) ⟨[], "a.png"⟩) :=
  c10_upscale (fun q => if q = ⟨[], "a.png"⟩ then some (UImage.src 2 3 "px") else none)
    ⟨[], "a.png"⟩ ⟨[], "b.png"⟩ 4 (UImage.src 2 3 "px") (by decide) (by decide)

/-- Counterexample to C10 as stated: upscaling with the output path equal
to the input path overwrites the input file. -/
theorem c10_counterexample :
    (upscale_image
        (fun q => if q = ⟨[], "a.png"⟩ then some (UImage.src 2 3 "px") else none)
        ⟨[], "a.png"⟩ ⟨[], "a.png"⟩ 4).1 ⟨[], "a.png"⟩
      ≠ (fun q => if q = (⟨[], "a.png"⟩ : PyPath)
          then some (UImage.src 2 3 "px") else none) (⟨[], "a.png"⟩ : PyPath) := by
  decide

end MusicSymbolDetector
